import Mathlib

/-!
Shallow embedding of `src/main.cpp` of the gatekeeper firmware (ESP32 gate
controller).  Each C function is modelled as a pure Lean function that returns
the list of observable side effects it performs (GPIO writes, blocking delays,
process restarts, console output, MQTT library calls), together with its
return value where the C function has one.  The ambient environment (the
ethernet link coming up, the result of each MQTT connect attempt, the result
of the client maintenance tick) is passed in as explicit oracles.

Modelling conventions:
 * A contiguous block of `Serial.print`/`Serial.println` status text is one
   `Effect.log` event; a print of a single payload byte is `Effect.logByte b`
   so that data flowing to the console stays visible in the trace.
 * `MQTT_DEBUG` is defined in the source (line 62) and `ETH_DEBUG` is not, so
   the `#ifdef MQTT_DEBUG` branches are compiled in and the `#ifdef ETH_DEBUG`
   branches are compiled out.
 * Payload bytes are `Nat` (ASCII: '0' = 48, '1' = 49, '9' = 57).
-/

namespace Gatekeeper

/-- `MQTT_CLIENT_ID` (main.cpp line 47). -/
def MQTT_CLIENT_ID : String := "gatekeeper"

/-- `MQTT_TOPIC` (main.cpp line 50). -/
def MQTT_TOPIC : String := "control/gate"

/-- `CONNECT_WAIT` (main.cpp line 59): seconds to wait for the ethernet link. -/
def CONNECT_WAIT : Nat := 30

/-- `GATE_GPIO` (main.cpp line 69): the actuator output pin. -/
def GATE_PIN : Nat := 15

/-- One observable side effect of the firmware. -/
inductive Effect where
  /-- `digitalWrite(pin, level)`; `high = true` for HIGH, `false` for LOW. -/
  | gpioWrite (pin : Nat) (high : Bool)
  /-- `delay(ms)`: a blocking wait. -/
  | delayMs (ms : Nat)
  /-- `ESP.restart()`: unconditional process restart. -/
  | restart
  /-- A contiguous block of console status output. -/
  | log
  /-- A single payload byte echoed to the console. -/
  | logByte (b : Nat)
  /-- `ETH.setHostname(name)`. -/
  | setHostname (name : String)
  /-- `hMqttClient.connect(MQTT_CLIENT_ID)`: one broker connect attempt. -/
  | connectAttempt
  /-- `hMqttClient.subscribe(MQTT_TOPIC)`. -/
  | subscribe
  /-- `hMqttClient.setCallback(MqttCallback)`. -/
  | setCallback
  /-- `hMqttClient.setServer(MQTT_SERVER, MQTT_PORT)`. -/
  | setServer
  /-- `hMqttClient.setClient(hEspClient)`. -/
  | setClient
  /-- `hMqttClient.loop()`: the client maintenance tick. -/
  | clientLoop
  /-- `ArduinoOTA.handle()`: the opaque firmware-update maintenance tick. -/
  | otaHandle
  /-- Marker: one invocation of `ConnectMqtt` (the session-ensure call). -/
  | ensureCall
  deriving DecidableEq, Repr

/-- The ethernet-related `WiFiEvent_t` values dispatched by `NetworkEvent`. -/
inductive WiFiEvent where
  | ethStart
  | ethConnEstablished
  | ethGotIP
  | ethDisconnected
  | ethStop
  | other (n : Nat)
  deriving DecidableEq, Repr

/-- `NetworkEvent` (main.cpp lines 100-140): the network event observer.
Input is the current value of the `eth_connected` flag and the event; output
is the new flag value and the effects performed.  `ETH_DEBUG` is not defined,
so the START and CONNECTED debug prints are compiled out. -/
def NetworkEvent (eth_connected : Bool) (e : WiFiEvent) : Bool × List Effect :=
  match e with
  | .ethStart => (eth_connected, [Effect.setHostname MQTT_CLIENT_ID])
  | .ethConnEstablished => (eth_connected, [])
  | .ethGotIP => (true, [Effect.log])
  | .ethDisconnected => (false, [Effect.log])
  | .ethStop => (false, [Effect.log])
  | .other _ => (eth_connected, [Effect.log])

/-- Outcome of `SetupNetwork`: either the link came up after `ticks` one-second
delays, or `ESP.restart()` fired after `ticks` one-second delays. -/
inductive NetOutcome where
  | connected (ticks : Nat)
  | restarted (ticks : Nat)
  deriving DecidableEq, Repr

/-- The wait loop of `SetupNetwork` (main.cpp lines 164-176).  `eth t` is the
value of the `eth_connected` flag observed by the `t`-th evaluation of the
`while` condition; `fuel` is the current value of `nWait`; `t` counts the
one-second `delay(1000)` ticks already performed.  A failed check performs
one tick and decrements `nWait`; when `--nWait` reaches 0 the loop restarts
the system. -/
def netWait (eth : Nat → Bool) : Nat → Nat → NetOutcome
  | 0, t => NetOutcome.restarted t
  | fuel + 1, t =>
    if eth t then NetOutcome.connected t
    else if fuel = 0 then NetOutcome.restarted (t + 1)
    else netWait eth fuel (t + 1)

/-- `SetupNetwork` (main.cpp lines 154-178): waits for the link with a budget
of `CONNECT_WAIT = 30` one-second ticks. -/
def SetupNetwork (eth : Nat → Bool) : NetOutcome :=
  netWait eth CONNECT_WAIT 0

/-- The `switch(payload[0])` of `MqttCallback` (main.cpp lines 200-225).
`MQTT_DEBUG` is defined, so each recognised command also prints a debug
line first; the default case prints a text block and then the unknown byte. -/
def dispatch (b : Nat) : List Effect :=
  if b = 48 then
    [Effect.log, Effect.gpioWrite GATE_PIN false]
  else if b = 49 then
    [Effect.log, Effect.gpioWrite GATE_PIN true, Effect.delayMs 750,
      Effect.gpioWrite GATE_PIN false]
  else if b = 57 then
    [Effect.log, Effect.restart]
  else
    [Effect.log, Effect.logByte b]

/-- `MqttCallback` (main.cpp lines 191-226).  It first echoes every payload
byte to the console, then switches on `payload[0]` with no guard on the
length: on an empty payload the read of `payload[0]` is out of bounds, which
the model makes explicit as `none` (undefined behaviour). -/
def MqttCallback (payload : List Nat) : Option (List Effect) :=
  match payload with
  | [] => none
  | b :: rest =>
      some (Effect.log :: ((b :: rest).map Effect.logByte ++ Effect.log :: dispatch b))

/-- The actuator/restart-relevant effects: GPIO writes, blocking delays and
restarts, as opposed to console output and MQTT library bookkeeping. -/
def Effect.isCore : Effect → Bool
  | .gpioWrite _ _ => true
  | .delayMs _ => true
  | .restart => true
  | _ => false

/-- Keep only the actuator/restart-relevant effects of a trace. -/
def coreEffects (tr : List Effect) : List Effect :=
  tr.filter Effect.isCore

/-- The retry loop of `ConnectMqtt` (main.cpp lines 246-267).  `att i` is the
result of the `i`-th `hMqttClient.connect` attempt in this call; `fuel` is
the number of loop iterations left (5 at entry).  A successful attempt logs
and returns `true` at once; a failed attempt logs the result code and then
performs the 2-second `delay(2000)`. -/
def mqttRetry (att : Nat → Bool) : Nat → Nat → List Effect × Bool
  | _, 0 => ([], false)
  | i, fuel + 1 =>
    if att i then
      ([Effect.connectAttempt, Effect.log], true)
    else
      let r := mqttRetry att (i + 1) fuel
      (Effect.connectAttempt :: Effect.log :: Effect.delayMs 2000 :: r.1, r.2)

/-- `ConnectMqtt` (main.cpp lines 239-281).  `connected` is the value of
`hMqttClient.connected()` at entry.  On a live session it only prints the
`MQTT_DEBUG` "connecting alive" line and returns `true`; on a dead session it
prints "Setup MQTT..." and runs the bounded retry loop (5 attempts). -/
def ConnectMqtt (connected : Bool) (att : Nat → Bool) : List Effect × Bool :=
  if connected then
    ([Effect.log], true)
  else
    (Effect.log :: (mqttRetry att 0 5).1, (mqttRetry att 0 5).2)

/-- `SetupMQTT` (main.cpp lines 295-306): binds the client and server, makes
one `ConnectMqtt` call whose result is discarded (`(void)ConnectMqtt()`),
installs the callback, and issues the single topic subscription, then logs. -/
def SetupMQTT (connected : Bool) (att : Nat → Bool) : List Effect :=
  Effect.setClient :: Effect.setServer ::
    ((ConnectMqtt connected att).1 ++ [Effect.setCallback, Effect.subscribe, Effect.log])

/-- `loop` (main.cpp lines 394-400): one iteration of the main loop.
`clientLoopOk` is the result of `hMqttClient.loop()`; only when it is `false`
is `ConnectMqtt` invoked (its result discarded), and `ArduinoOTA.handle()`
runs at the end of every iteration.  The `Effect.ensureCall` marker records
each invocation of `ConnectMqtt`. -/
def loop (clientLoopOk connected : Bool) (att : Nat → Bool) : List Effect :=
  Effect.clientLoop ::
    ((if clientLoopOk then [] else Effect.ensureCall :: (ConnectMqtt connected att).1) ++
      [Effect.otaHandle])

/-- The trace left by `n` consecutive failed connect attempts of the
`ConnectMqtt` retry loop: attempt, result-code log, 2-second pause, `n` times. -/
def failTrace : Nat → List Effect
  | 0 => []
  | n + 1 => Effect.connectAttempt :: Effect.log :: Effect.delayMs 2000 :: failTrace n

/- ------------------------------------------------------------------ -/
/- Helper lemmas                                                       -/
/- ------------------------------------------------------------------ -/

theorem filter_isCore_logBytes (l : List Nat) :
    (l.map Effect.logByte).filter Effect.isCore = [] := by
  induction l with
  | nil => rfl
  | cons b t ih => simp [Effect.isCore, ih]

theorem mqttRetry_mem (att : Nat → Bool) :
    ∀ fuel i x, x ∈ (mqttRetry att i fuel).1 →
      x = Effect.connectAttempt ∨ x = Effect.log ∨ x = Effect.delayMs 2000 := by
  intro fuel
  induction fuel with
  | zero => intro i x hx; simp [mqttRetry] at hx
  | succ f ih =>
    intro i x hx
    by_cases h : att i
    · simp [mqttRetry, h] at hx
      rcases hx with h1 | h1 <;> simp [h1]
    · simp [mqttRetry, h] at hx
      rcases hx with h1 | h1 | h1 | h1
      · simp [h1]
      · simp [h1]
      · simp [h1]
      · exact ih (i + 1) x h1

theorem mqttRetry_count_le (att : Nat → Bool) :
    ∀ fuel i, ((mqttRetry att i fuel).1).count Effect.connectAttempt ≤ fuel := by
  intro fuel
  induction fuel with
  | zero => intro i; simp [mqttRetry]
  | succ f ih =>
    intro i
    by_cases h : att i
    · simp [mqttRetry, h]
    · have := ih (i + 1)
      simp [mqttRetry, h, List.count_cons]
      omega

theorem mqttRetry_all_fail (att : Nat → Bool) :
    ∀ fuel i, (∀ j, i ≤ j → j < i + fuel → att j = false) →
      mqttRetry att i fuel = (failTrace fuel, false) := by
  intro fuel
  induction fuel with
  | zero => intro i _; rfl
  | succ f ih =>
    intro i h
    have hi : att i = false := h i le_rfl (by omega)
    have hrec := ih (i + 1) (fun j hj1 hj2 => h j (by omega) (by omega))
    simp [mqttRetry, hi, hrec, failTrace]

theorem mqttRetry_first_success (att : Nat → Bool) :
    ∀ fuel i k, k < fuel → (∀ j, i ≤ j → j < i + k → att j = false) →
      att (i + k) = true →
      mqttRetry att i fuel =
        (failTrace k ++ [Effect.connectAttempt, Effect.log], true) := by
  intro fuel
  induction fuel with
  | zero => intro i k hk; omega
  | succ f ih =>
    intro i k hk hfail hsucc
    cases k with
    | zero =>
      have hi : att i = true := by simpa using hsucc
      simp [mqttRetry, hi, failTrace]
    | succ k =>
      have hi : att i = false := hfail i le_rfl (by omega)
      have hrec := ih (i + 1) k (by omega)
        (fun j hj1 hj2 => hfail j (by omega) (by omega))
        (by have : i + 1 + k = i + (k + 1) := by omega
            rw [this]; exact hsucc)
      simp [mqttRetry, hi, hrec, failTrace]

theorem connectMqtt_mem (connected : Bool) (att : Nat → Bool) :
    ∀ x ∈ (ConnectMqtt connected att).1,
      x = Effect.connectAttempt ∨ x = Effect.log ∨ x = Effect.delayMs 2000 := by
  intro x hx
  cases connected with
  | true => simp [ConnectMqtt] at hx; simp [hx]
  | false =>
    simp [ConnectMqtt] at hx
    rcases hx with h1 | h1
    · simp [h1]
    · exact mqttRetry_mem att 5 0 x h1

theorem connectMqtt_count_zero (connected : Bool) (att : Nat → Bool) (e : Effect)
    (h1 : e ≠ Effect.connectAttempt) (h2 : e ≠ Effect.log)
    (h3 : e ≠ Effect.delayMs 2000) :
    (ConnectMqtt connected att).1.count e = 0 := by
  refine List.count_eq_zero_of_not_mem (fun hmem => ?_)
  rcases connectMqtt_mem connected att e hmem with h | h | h
  · exact h1 h
  · exact h2 h
  · exact h3 h

theorem netWait_restarts (eth : Nat → Bool) :
    ∀ fuel t, 0 < fuel → (∀ s, s < t + fuel → eth s = false) →
      netWait eth fuel t = NetOutcome.restarted (t + fuel) := by
  intro fuel
  induction fuel with
  | zero => intro t h; omega
  | succ f ih =>
    intro t _ hall
    have ht : eth t = false := hall t (by omega)
    cases f with
    | zero => simp [netWait, ht]
    | succ g =>
      have h2 := ih (t + 1) (by omega) (fun s hs => hall s (by omega))
      have h3 : t + 1 + (g + 1) = t + (g + 1 + 1) := by omega
      rw [h3] at h2
      rw [netWait, if_neg (by simp [ht]), if_neg (by omega)]
      exact h2

theorem netWait_connects (eth : Nat → Bool) :
    ∀ fuel t, (∃ s, t ≤ s ∧ s < t + fuel ∧ eth s = true) →
      ∃ k, k < t + fuel ∧ netWait eth fuel t = NetOutcome.connected k := by
  intro fuel
  induction fuel with
  | zero => rintro t ⟨s, h1, h2, _⟩; omega
  | succ f ih =>
    rintro t ⟨s, hs1, hs2, hs3⟩
    by_cases ht : eth t
    · exact ⟨t, by omega, by simp [netWait, ht]⟩
    · have hst : t < s := by
        rcases Nat.lt_or_ge t s with h | h
        · exact h
        · have : s = t := by omega
          rw [this] at hs3
          simp [hs3] at ht
      cases f with
      | zero => omega
      | succ g =>
        obtain ⟨k, hk1, hk2⟩ := ih (t + 1) ⟨s, by omega, by omega, hs3⟩
        refine ⟨k, by omega, ?_⟩
        simpa [netWait, ht] using hk2

/- ------------------------------------------------------------------ -/
/- Claim theorems                                                      -/
/- ------------------------------------------------------------------ -/

/-- Claim C1: command decoding in `MqttCallback` is a pure function of the
first payload byte.  For `'0'` (48) the actuator line is driven low exactly
once; for `'1'` (49) it is driven high, then after a blocking 750 ms wait
driven low, exactly once, with no restart; for `'9'` (57) a process restart
is invoked; for every other first byte no actuator write, no delay and no
restart occurs. -/
theorem C1_command_decode (b : Nat) (rest : List Nat) :
    ∃ tr, MqttCallback (b :: rest) = some tr ∧
      coreEffects tr =
        (if b = 48 then [Effect.gpioWrite GATE_PIN false]
         else if b = 49 then
           [Effect.gpioWrite GATE_PIN true, Effect.delayMs 750,
             Effect.gpioWrite GATE_PIN false]
         else if b = 57 then [Effect.restart]
         else []) := by
  refine ⟨_, rfl, ?_⟩
  unfold dispatch
  split_ifs <;>
    simp [coreEffects, List.filter_append, filter_isCore_logBytes, Effect.isCore]

/-- Claim C2: `SetupNetwork` blocks until the link reports address
acquisition; if the link never comes up it performs exactly 30 one-second
ticks and then triggers a system restart, and whenever the link comes up at
some check before the 30-tick budget is exhausted it returns connected,
without restarting. -/
theorem C2_establishLink (eth : Nat → Bool) :
    ((∀ t, t < 30 → eth t = false) → SetupNetwork eth = NetOutcome.restarted 30) ∧
    ((∃ t, t < 30 ∧ eth t = true) →
      ∃ k, k < 30 ∧ SetupNetwork eth = NetOutcome.connected k) := by
  constructor
  · intro h
    have h2 := netWait_restarts eth 30 0 (by omega) (fun s hs => h s (by omega))
    simpa [SetupNetwork, CONNECT_WAIT] using h2
  · rintro ⟨t, ht, htrue⟩
    have h2 := netWait_connects eth 30 0 ⟨t, by omega, by omega, htrue⟩
    simpa [SetupNetwork, CONNECT_WAIT] using h2

/-- Witness for C2 at the concrete link oracles "never up" and "up at once". -/
theorem C2_establishLink_witness :
    SetupNetwork (fun _ => false) = NetOutcome.restarted 30 ∧
    ∃ k, k < 30 ∧ SetupNetwork (fun _ => true) = NetOutcome.connected k :=
  ⟨(C2_establishLink (fun _ => false)).1 (fun _ _ => rfl),
   (C2_establishLink (fun _ => true)).2 ⟨0, by decide, rfl⟩⟩

/-- Claim C3: within one `ConnectMqtt` call on a dead session, connect
attempts are bounded at exactly 5, each failed attempt followed by a
2-second pause; the call returns `true` the instant an attempt succeeds
(nothing happens after the successful attempt's log, so a 6th attempt never
occurs), and if all 5 attempts fail it returns `false` after the 5-cycle
failure trace. -/
theorem C3_bounded_attempts (att : Nat → Bool) :
    (ConnectMqtt false att).1.count Effect.connectAttempt ≤ 5 ∧
    ((∀ i, i < 5 → att i = false) →
      ConnectMqtt false att = (Effect.log :: failTrace 5, false)) ∧
    (∀ k, k < 5 → (∀ j, j < k → att j = false) → att k = true →
      ConnectMqtt false att =
        (Effect.log :: (failTrace k ++ [Effect.connectAttempt, Effect.log]), true)) := by
  refine ⟨?_, ?_, ?_⟩
  · have h2 := mqttRetry_count_le att 5 0
    simp [ConnectMqtt, List.count_cons]
    omega
  · intro h
    have h2 := mqttRetry_all_fail att 5 0 (fun j _ hj2 => h j (by omega))
    simp [ConnectMqtt, h2]
  · intro k hk hfail hsucc
    have h2 := mqttRetry_first_success att 5 0 k hk
      (fun j _ hj2 => hfail j (by omega)) (by simpa using hsucc)
    simp [ConnectMqtt, h2]

/-- Witness for C3 at the oracles "every attempt fails" and "the third
attempt succeeds". -/
theorem C3_bounded_attempts_witness :
    ConnectMqtt false (fun _ => false) = (Effect.log :: failTrace 5, false) ∧
    ConnectMqtt false (fun i => decide (i = 2)) =
      (Effect.log :: (failTrace 2 ++ [Effect.connectAttempt, Effect.log]), true) :=
  ⟨(C3_bounded_attempts (fun _ => false)).2.1 (fun _ _ => rfl),
   (C3_bounded_attempts (fun i => decide (i = 2))).2.2 2 (by decide)
     (fun j hj => by simp only [decide_eq_false_iff_not]; omega) (by decide)⟩

/-- Claim C4: `ConnectMqtt` on a live session is idempotent: it returns
`true` with a log as its only effect — no connect attempt, no pause. -/
theorem C4_ensureSession_idempotent (att : Nat → Bool) :
    (ConnectMqtt true att).2 = true ∧
    (ConnectMqtt true att).1 = [Effect.log] ∧
    (ConnectMqtt true att).1.count Effect.connectAttempt = 0 ∧
    (ConnectMqtt true att).1.count (Effect.delayMs 2000) = 0 :=
  ⟨rfl, rfl, rfl, rfl⟩

/-- Claim C5: `MqttCallback` reads `payload[0]` with no guard on the length:
any nonempty payload is handled (the access is in bounds), while the empty
payload hits an unchecked out-of-bounds read, modelled as `none`. -/
theorem C5_unguarded_payload :
    MqttCallback [] = none ∧
    ∀ p : List Nat, p ≠ [] → ∃ tr, MqttCallback p = some tr := by
  refine ⟨rfl, ?_⟩
  intro p hp
  cases p with
  | nil => exact absurd rfl hp
  | cons b rest => exact ⟨_, rfl⟩

/-- Witness for C5 at the concrete payload `"0"`. -/
theorem C5_unguarded_payload_witness :
    MqttCallback [] = none ∧ ∃ tr, MqttCallback [48] = some tr :=
  ⟨C5_unguarded_payload.1, C5_unguarded_payload.2 [48] (by decide)⟩

/-- Claim C6: the topic subscription is issued exactly once, in `SetupMQTT`,
and a `ConnectMqtt` call (successful or failed, in any session state) never
issues a subscribe. -/
theorem C6_subscribe_once (connected : Bool) (att : Nat → Bool) :
    (SetupMQTT connected att).count Effect.subscribe = 1 ∧
    (ConnectMqtt connected att).1.count Effect.subscribe = 0 := by
  have hc : (ConnectMqtt connected att).1.count Effect.subscribe = 0 :=
    connectMqtt_count_zero connected att Effect.subscribe
      (by decide) (by decide) (by decide)
  refine ⟨?_, hc⟩
  simp [SetupMQTT, List.count_cons, List.count_append, hc]

/-- Counterexample to C7 as stated: the payloads `"9x"` and `"9y"` agree on
the first byte `'9'` but produce different observable traces, because the
trailing byte is echoed to the console by the logging loop. -/
theorem C7_counterexample :
    MqttCallback [57, 120] ≠ MqttCallback [57, 121] := by decide

/-- Claim C7 (amended): for every payload whose first byte is `'9'`, a
process restart is invoked; the trailing bytes are echoed to the console
log but never influence the decoded action — the actuator/restart effects
are `[Effect.restart]` for every such payload, hence identical for any two
payloads agreeing on the first byte `'9'`. -/
theorem C7_restart_ignores_tail (rest rest' : List Nat) :
    (∃ tr, MqttCallback (57 :: rest) = some tr ∧ Effect.restart ∈ tr) ∧
    Option.map coreEffects (MqttCallback (57 :: rest)) = some [Effect.restart] ∧
    Option.map coreEffects (MqttCallback (57 :: rest)) =
      Option.map coreEffects (MqttCallback (57 :: rest')) := by
  have key : ∀ l : List Nat,
      Option.map coreEffects (MqttCallback (57 :: l)) = some [Effect.restart] := by
    intro l
    simp [MqttCallback, dispatch, coreEffects, List.filter_append,
      filter_isCore_logBytes, Effect.isCore]
  refine ⟨⟨_, rfl, ?_⟩, key rest, (key rest).trans (key rest').symm⟩
  simp [dispatch]

/-- Claim C8: `NetworkEvent` implements exactly the stated transition table
for the link-up flag — address acquisition sets it `true`, disconnect and
stop set it `false`, every other event leaves it unchanged — and the
advertised hostname is set to the fixed device identity string exactly on
the start event. -/
theorem C8_networkEvent_table (flag : Bool) (e : WiFiEvent) :
    ((NetworkEvent flag e).1 =
      match e with
      | .ethGotIP => true
      | .ethDisconnected => false
      | .ethStop => false
      | _ => flag) ∧
    (Effect.setHostname MQTT_CLIENT_ID ∈ (NetworkEvent flag e).2 ↔
      e = WiFiEvent.ethStart) := by
  cases e <;> simp [NetworkEvent]

/-- Counterexample to C9 as stated: on an iteration where the client
maintenance tick `hMqttClient.loop()` succeeds, `ConnectMqtt` is not
invoked at all, so the session-ensure call is not made once per pass. -/
theorem C9_counterexample :
    (loop true false (fun _ => false)).count Effect.ensureCall ≠ 1 := by decide

/-- Claim C9 (amended): on every iteration of the main loop the maintenance
tick and the client maintenance tick each run exactly once, while the
session-ensure call (`ConnectMqtt`) runs exactly once when the client
maintenance tick reports failure and not at all when it reports success. -/
theorem C9_loop_per_iteration (clientLoopOk connected : Bool) (att : Nat → Bool) :
    (loop clientLoopOk connected att).count Effect.otaHandle = 1 ∧
    (loop clientLoopOk connected att).count Effect.clientLoop = 1 ∧
    (loop clientLoopOk connected att).count Effect.ensureCall =
      (if clientLoopOk then 0 else 1) := by
  have h1 := connectMqtt_count_zero connected att Effect.otaHandle
    (by decide) (by decide) (by decide)
  have h2 := connectMqtt_count_zero connected att Effect.clientLoop
    (by decide) (by decide) (by decide)
  have h3 := connectMqtt_count_zero connected att Effect.ensureCall
    (by decide) (by decide) (by decide)
  cases clientLoopOk <;>
    simp [loop, List.count_cons, List.count_append, h1, h2, h3]

/-- Claim C10: `SetupMQTT` discards the result of its `ConnectMqtt` call:
when all five initial connect attempts fail the call returns `false`, yet
the callback is still installed, the single subscribe is still issued
against the dead session, and no restart is triggered. -/
theorem C10_setup_ignores_failure (att : Nat → Bool)
    (h : ∀ i, i < 5 → att i = false) :
    (ConnectMqtt false att).2 = false ∧
    (SetupMQTT false att).count Effect.subscribe = 1 ∧
    (SetupMQTT false att).count Effect.restart = 0 ∧
    Effect.setCallback ∈ SetupMQTT false att := by
  have h2 := mqttRetry_all_fail att 5 0 (fun j _ hj2 => h j (by omega))
  have hconn : ConnectMqtt false att = (Effect.log :: failTrace 5, false) := by
    simp [ConnectMqtt, h2]
  refine ⟨by simp [hconn], ?_, ?_, ?_⟩ <;>
    · rw [SetupMQTT, hconn]
      decide

/-- Witness for C10 at the oracle "every attempt fails". -/
theorem C10_setup_ignores_failure_witness :
    (ConnectMqtt false (fun _ => false)).2 = false ∧
    (SetupMQTT false (fun _ => false)).count Effect.subscribe = 1 ∧
    (SetupMQTT false (fun _ => false)).count Effect.restart = 0 ∧
    Effect.setCallback ∈ SetupMQTT false (fun _ => false) :=
  C10_setup_ignores_failure (fun _ => false) (fun _ _ => rfl)

end Gatekeeper
